import Mathlib

/-!
# Verification of the gemapp desktop chat client

Shallow embedding of the renderer-side chat controller (`ChatArea.tsx`),
the encrypted local store (`storage.ts`), the session/persona directory
(`Layout`), and the main-process media cache and model gateway handlers
(`main/index.ts`), together with theorems settling the frozen claims
about them.

Conventions: JS strings are Lean `String`s, byte buffers are `List Nat`,
file-system paths are lists of path segments measured from the root, and
JS exceptions are modelled with `Option`/`Except`.  Nondeterministic
environment behaviour (which `localStorage.setItem` calls hit the quota,
what each network attempt returns) is passed in as explicit oracles.
-/

namespace Gemapp

/-! ## JS string primitives used by the source -/

/-- If `pat` is a leading run of `s`, the remainder of `s` after it. -/
def dropLeading : List Char → List Char → Option (List Char)
  | [], s => some s
  | _, [] => none
  | p :: ps, c :: cs => if p = c then dropLeading ps cs else none

/-- Char-list worker for `replaceFirst`. -/
def replaceFirstAux (pat : List Char) : List Char → List Char
  | [] => []
  | c :: cs =>
    match dropLeading pat (c :: cs) with
    | some rest => rest
    | none => c :: replaceFirstAux pat cs

/-- JS `s.replace(pat, "")` with a plain-string pattern removes only the
first occurrence of `pat` from `s`. -/
def replaceFirst (s pat : String) : String :=
  String.mk (replaceFirstAux pat.toList s.toList)

/-- Char-list worker for `splitChar`. -/
def splitCharAux (sep : Char) : List Char → List Char → List (List Char)
  | [], acc => [acc.reverse]
  | c :: cs, acc =>
    if c = sep then acc.reverse :: splitCharAux sep cs []
    else splitCharAux sep cs (c :: acc)

/-- JS `s.split(sep)` with a single-character separator. -/
def splitChar (sep : Char) (s : String) : List String :=
  (splitCharAux sep s.toList []).map String.mk

/-- JS `s.split('/').pop() || s`: the last `'/'`-separated segment, falling
back to the whole string when that segment is the (falsy) empty string. -/
def lastSegOr (s : String) : String :=
  match (splitChar '/' s).getLast? with
  | some seg => if seg = "" then s else seg
  | none => s

/-- JS `s.replace(/\/+$/, '')`: strip trailing slashes. -/
def stripTrailingSlashes (s : String) : String :=
  String.mk ((s.toList.reverse.dropWhile (· = '/')).reverse)

/-- JS `s.trim()`. -/
def jsTrim (s : String) : String :=
  String.mk (((s.toList.dropWhile Char.isWhitespace).reverse.dropWhile
    Char.isWhitespace).reverse)

/-- Models JS `decodeURI` restricted to inputs containing no percent-escape
sequence, where it is the identity.  (`decodeURI` never decodes the
reserved `%2F` into `/`, so decoding cannot introduce new separators; all
concrete inputs considered in this development are escape-free.) -/
def decodeURIModel (s : String) : String := s

/-- Does `pat` occur as a leading run of `s`? -/
def isLeadingRun : List Char → List Char → Bool
  | [], _ => true
  | _ :: _, [] => false
  | p :: ps, c :: cs => p = c && isLeadingRun ps cs

/-- Char-list worker for `strIncludes`. -/
def containsSubAux (pat : List Char) : List Char → Bool
  | [] => isLeadingRun pat []
  | c :: cs => isLeadingRun pat (c :: cs) || containsSubAux pat cs

/-- Substring test, JS `String.prototype.includes`. -/
def strIncludes (s sub : String) : Bool :=
  containsSubAux sub.toList s.toList

/-- JS `s.toLowerCase()` (ASCII range, which is all the source compares). -/
def strToLower (s : String) : String :=
  String.mk (s.toList.map Char.toLower)

/-! ## Path and file-system model (Node `path` / `fs` on POSIX) -/

/-- Node `path.join(base, rel)` with `..`/`.` normalization, on a base given
as a list of segments from the root. -/
def pathResolve (base : List String) (rel : String) : List String :=
  (splitChar '/' rel).foldl
    (fun acc seg =>
      if seg = "" ∨ seg = "." then acc
      else if seg = ".." then acc.dropLast
      else acc ++ [seg])
    base

/-- Node `path.extname`: the extension (including the dot) of the final path
segment; empty for dotless names, for names whose only dot is leading, and
for the all-dots names `.`/`..`. -/
def extname (s : String) : String :=
  let base := ((splitChar '/' s).getLastD s)
  let rev := base.toList.reverse
  let afterDot := rev.takeWhile (· ≠ '.')
  if base.toList.all (· = '.') then ""
  else if afterDot.length = rev.length then ""
  else if afterDot.length + 1 = rev.length then ""
  else String.mk ('.' :: afterDot.reverse)

/-- A file-system entry: a regular file with its bytes, or a directory. -/
inductive FsEntry
  | file (data : List Nat)
  | dir
deriving DecidableEq, Repr

/-- A file system: a partial map from root-relative segment paths to entries. -/
def Fs : Type := List String → Option FsEntry

/-- `app.getPath('userData')`, as a root-relative segment path. -/
def userDataPath : List String := ["userData"]

/-- The managed media directory `path.join(userData, 'images')`. -/
def imagesDir : List String := userDataPath ++ ["images"]

/-! ## Media Cache resolve: the `gemini-media` protocol handler
(`src/main/index.ts`, `protocol.handle('gemini-media')`). -/

/-- Extension → MIME table of the protocol handler (default `image/png`). -/
def protocolMime (ext : String) : String :=
  if ext = ".jpg" ∨ ext = ".jpeg" then "image/jpeg"
  else if ext = ".webp" then "image/webp"
  else if ext = ".gif" then "image/gif"
  else if ext = ".svg" then "image/svg+xml"
  else "image/png"

/-- Outcome of the protocol handler: `ok` is a 200 response carrying the
file bytes; the others are the 400 / 404 / 500 negative responses. -/
inductive MediaResponse
  | ok (mimeType : String) (data : List Nat)
  | invalidFilename
  | notFound
  | internalError
deriving DecidableEq, Repr

/-- The `gemini-media` protocol handler: strips the scheme, decodes, keeps
the last path segment (falling back to the whole decoded string when the
URL ends in `/`), strips trailing slashes, rejects empty names with 400,
then joins onto the images directory and serves the file; a missing path
is 404 and a read failure (e.g. `EISDIR` on a directory) is caught as 500. -/
def handleGeminiMedia (fs : Fs) (url : String) : MediaResponse :=
  let u := replaceFirst url "gemini-media://"
  let decodedUrl := decodeURIModel u
  let cleanFilename := stripTrailingSlashes (lastSegOr decodedUrl)
  if cleanFilename = "" ∨ jsTrim cleanFilename = "" then .invalidFilename
  else
    let filePath := pathResolve imagesDir cleanFilename
    match fs filePath with
    | none => .notFound
    | some .dir => .internalError
    | some (.file data) =>
        .ok (protocolMime (strToLower (extname cleanFilename))) data

/-- A file system with the cache directory present and a secret file
`userData/secret.txt` sitting outside it. -/
def escapeFs : Fs := fun p =>
  if p = userDataPath then some .dir
  else if p = imagesDir then some .dir
  else if p = userDataPath ++ ["secret.txt"] then some (.file [42, 43, 44])
  else none

/-! ## Model Gateway: the 429 retry loop of the `gemini:stream` handler -/

/-- An error thrown by the generative-AI SDK call, as inspected by the
retry loop: its `message` string and optional HTTP `status`. -/
structure ApiError where
  message : String
  status : Option Nat := none
deriving DecidableEq, Repr

/-- The handler's rate-limit test on a caught error. -/
def isRateLimitError (e : ApiError) : Bool :=
  strIncludes e.message "429" || e.status == some 429 ||
    strIncludes e.message "Too Many Requests" ||
    strIncludes e.message "Resource exhausted"

/-- `const maxRetries = 3`. -/
def maxRetries : Nat := 3

/-- The `while (true)` loop around `chat.sendMessageStream`, with the
environment's behaviour given by `attempts k` = outcome of the `k`-th call
(0-indexed).  Returns the final outcome (an `.error` is the exception
re-thrown to the surrounding catch) paired with the total milliseconds
slept in backoff (`Math.pow(2, retryCount) * 1000`). -/
def sendWithRetry (attempts : Nat → Except ApiError α) (retryCount : Nat) :
    Except ApiError α × Nat :=
  match attempts retryCount with
  | .ok v => (.ok v, 0)
  | .error e =>
    if h : isRateLimitError e = true ∧ retryCount < maxRetries then
      let rc := retryCount + 1
      let rest := sendWithRetry attempts rc
      (rest.1, 2 ^ rc * 1000 + rest.2)
    else (.error e, 0)
termination_by maxRetries - retryCount
decreasing_by omega

/-- The retry loop as entered by the handler (`retryCount = 0`). -/
def geminiStreamRetry (attempts : Nat → Except ApiError α) :
    Except ApiError α × Nat :=
  sendWithRetry attempts 0

/-! ## Chat Session Controller (`ChatArea.tsx`) -/

/-- Message roles of the renderer's `ChatMessage` type. -/
inductive Role
  | user
  | model
deriving DecidableEq, Repr

/-- The renderer's `ChatMessage`: role, text content, optional attachment
list (inline data URLs or `gemini-media://` cache references). -/
structure ChatMessage where
  role : Role
  content : String
  images : Option (List String) := none
deriving DecidableEq, Repr

/-- The resolved value of the `window.gemini.stream` IPC call. -/
structure StreamResult where
  success : Bool
  text : Option String := none
  images : Option (List String) := none
  error : Option String := none
deriving DecidableEq, Repr

/-- The optimistic `{ role: 'model', content: '...' }` placeholder. -/
def placeholderMessage : ChatMessage := { role := .model, content := "..." }

/-- The success branch of `generateResponse`'s `setMessages` updater:
if the trailing message is the placeholder its content and images are
overwritten, otherwise a fresh model message is appended.  `none` models
the TypeError JS would raise reading `.role` of `undefined` on an empty
list. -/
def applyStreamSuccess (ui : List ChatMessage) (text : String)
    (imgs : Option (List String)) : Option (List ChatMessage) :=
  match ui.getLast? with
  | none => none
  | some last =>
    if last.role = .model ∧ last.content = "..." then
      some (ui.dropLast ++ [{ last with content := text, images := imgs }])
    else some (ui ++ [{ role := .model, content := text, images := imgs }])

/-- The failure branch of `generateResponse`'s `setMessages` updater:
like the success branch but only the content is replaced (by the formatted
error text) and no images are attached. -/
def applyStreamFailure (ui : List ChatMessage) (errText : String) :
    Option (List ChatMessage) :=
  match ui.getLast? with
  | none => none
  | some last =>
    if last.role = .model ∧ last.content = "..." then
      some (ui.dropLast ++ [{ last with content := errText }])
    else some (ui ++ [{ role := .model, content := errText }])

/-- What the formatted error content looks like; a missing `error` field
prints as JS string interpolation renders `undefined`. -/
def streamErrorText (res : StreamResult) : String :=
  "Error: " ++ res.error.getD "undefined" ++
    "\n\nTry a different model or check your API key."

/-- Outcome of a controller operation: the final in-memory transcript and
the `onUpdateChat(id, messages)` persistence calls it issued, in order. -/
structure GenOutcome where
  ui : List ChatMessage
  persisted : List (String × List ChatMessage)
deriving DecidableEq, Repr

/-- `generateResponse(historyMessages, chatId, instructions)` with the
gateway's answer `res` supplied as data and the transcript state at the
time of its `setMessages` call supplied as `ui`.  On success it reconciles
the placeholder and persists `historyMessages` plus the final model turn
(when `chatId` is truthy); on failure it only rewrites the placeholder
with the formatted error text — no persistence call is made.  `none`
models a thrown TypeError (empty `historyMessages`). -/
def generateResponse (historyMessages : List ChatMessage) (chatId : String)
    (res : StreamResult) (ui : List ChatMessage) : Option GenOutcome :=
  match historyMessages.getLast? with
  | none => none
  | some lastMsg =>
    if lastMsg.role ≠ .user then some ⟨ui, []⟩
    else if res.success then
      match applyStreamSuccess ui (res.text.getD "") res.images with
      | none => none
      | some ui' =>
        let updatedMessages := historyMessages ++
          [{ role := .model, content := res.text.getD "", images := res.images }]
        some ⟨ui', if chatId ≠ "" then [(chatId, updatedMessages)] else []⟩
    else
      match applyStreamFailure ui (streamErrorText res) with
      | none => none
      | some ui' => some ⟨ui', []⟩

/-- The body shared by both `handleRetry` branches once `historyToKeep` is
fixed: set the transcript to the kept turns plus a placeholder, then run
`generateResponse` against the kept history.  (The surrounding
`try`/`catch` is not modelled separately: with a nonempty `historyToKeep`
the modelled `generateResponse` never throws.) -/
def retryRun (historyToKeep : List ChatMessage) (activeChatId : Option String)
    (res : StreamResult) : Option GenOutcome :=
  generateResponse historyToKeep (activeChatId.getD "") res
    (historyToKeep ++ [placeholderMessage])

/-- `handleRetry(index)`: ignored while a request is pending or without an
API key; on a model turn the history is truncated to just before it
(refused unless the preceding turn is a user turn), on a user turn the
target is kept and everything after it truncated, then the generation
sub-flow is re-run.  `none` models the TypeError JS raises reading
`.role` of an out-of-range index. -/
def handleRetry (loading : Bool) (apiKey : String)
    (messages : List ChatMessage) (index : Nat)
    (activeChatId : Option String) (res : StreamResult) : Option GenOutcome :=
  if loading then some ⟨messages, []⟩
  else if apiKey = "" then some ⟨messages, []⟩
  else
    match messages.get? index with
    | none => none
    | some targetMsg =>
      match targetMsg.role with
      | .model =>
        let historyToKeep := messages.take index
        match historyToKeep.getLast? with
        | none => some ⟨messages, []⟩
        | some prev =>
          if prev.role ≠ .user then some ⟨messages, []⟩
          else retryRun historyToKeep activeChatId res
      | .user =>
        retryRun (messages.take (index + 1)) activeChatId res

/-- The single model turn a retry leaves at the end of the transcript:
the reconciled final content on success, the formatted error on failure. -/
def finalRetryMessage (res : StreamResult) : ChatMessage :=
  if res.success then
    { role := .model, content := res.text.getD "", images := res.images }
  else
    { role := .model, content := streamErrorText res }

/-! ## Encrypted Local Store (`storage.ts`) -/

/-- A `ChatSession` of the storage layer. -/
structure ChatSession where
  id : String
  title : String
  messages : List ChatMessage
  updatedAt : Nat
  modelId : Option String := none
  gemId : Option String := none
deriving DecidableEq, Repr

/-- A persona preset (`Gem`). -/
structure Gem where
  id : String
  name : String
  icon : String
  instruction : String
deriving DecidableEq, Repr

/-- What a raw string stored under a `localStorage` key can be: a
well-formed `CryptoJS.AES` ciphertext of a value, a plaintext JSON
rendering of a value (the legacy pre-encryption format), or neither.
`StorageService.decrypt` succeeds exactly on `cipher`; `JSON.parse` of the
raw string succeeds exactly on `plainJson` (a CryptoJS ciphertext is
OpenSSL-format base64 starting `U2FsdGVk` and is never valid JSON). -/
inductive Blob (α : Type)
  | cipher (v : α)
  | plainJson (v : α)
  | garbage
deriving DecidableEq, Repr

/-- `StorageService.decrypt` on a raw blob. -/
def decryptBlob : Blob α → Option α
  | .cipher v => some v
  | _ => none

/-- `JSON.parse` applied to the raw stored string. -/
def parseRaw : Blob α → Option α
  | .plainJson v => some v
  | _ => none

/-- `saveChats`' quota-fallback message projection `{ role, content,
images: undefined }`: role and text kept, attachments dropped. -/
def liteMessage (m : ChatMessage) : ChatMessage :=
  { role := m.role, content := m.content, images := none }

/-- `saveChats`' quota-fallback chat projection `{ ...chat, messages:
chat.messages.map(...) }`. -/
def liteChat (c : ChatSession) : ChatSession :=
  { c with messages := c.messages.map liteMessage }

/-- The `liteChats` array built in `saveChats`' catch block. -/
def liteChats (chats : List ChatSession) : List ChatSession :=
  chats.map liteChat

/-- `localStorage.setItem` under a quota oracle: `fails` says whether this
particular write throws. -/
def trySetItem (fails : Bool) (b : Blob α) :
    Except Unit (Option (Blob α)) :=
  if fails then .error () else .ok (some b)

/-- `StorageService.saveChats`: encrypt and write; on a write exception,
retry once with `liteChats`; a second exception is logged and swallowed.
(`encrypt` itself never throws on these JSON-serializable values, so the
only throw points are the two `setItem`s, whose quota behaviour is the
`fail1`/`fail2` oracle.)  Returns the stored blob for the chats key;
an `.error` result would be an exception escaping to the caller. -/
def saveChats (fail1 fail2 : Bool) (chats : List ChatSession)
    (st : Option (Blob (List ChatSession))) :
    Except Unit (Option (Blob (List ChatSession))) :=
  match trySetItem fail1 (.cipher chats) with
  | .ok st' => .ok st'
  | .error _ =>
    match trySetItem fail2 (.cipher (liteChats chats)) with
    | .ok st' => .ok st'
    | .error _ => .ok st

/-! ### The JSON-value view of the three persisted blobs

`getChats` / `getSettings` / `getGems` validate almost nothing about the
decrypted value, so their load semantics is modelled on a JSON value type
with JS truthiness. -/

/-- A JSON value. -/
inductive JVal
  | jnull
  | jbool (b : Bool)
  | jnum (n : Int)
  | jstr (s : String)
  | jarr (xs : List JVal)
  | jobj (fields : List (String × JVal))

/-- JS truthiness of a JSON value. -/
def truthy : JVal → Bool
  | .jnull => false
  | .jbool b => b
  | .jnum n => n != 0
  | .jstr s => s ≠ ""
  | .jarr _ => true
  | .jobj _ => true

/-- `Array.isArray`. -/
def isArr : JVal → Bool
  | .jarr _ => true
  | _ => false

/-- JS `typeof x === 'object'` for JSON values (`null` included). -/
def typeofObject : JVal → Bool
  | .jnull => true
  | .jarr _ => true
  | .jobj _ => true
  | _ => false

/-- The `defaultSettings` object of `getSettings`. -/
def defaultSettings : JVal :=
  .jobj [("apiKeys", .jarr []), ("activeKeyId", .jstr ""),
         ("activeModel", .jstr "gemini-1.5-flash"), ("theme", .jstr "dark"),
         ("username", .jstr "User"), ("globalInstructions", .jstr "")]

/-- The legacy-plaintext fallback of `getChats`: parse the raw string; an
array is re-saved encrypted (modelled with the quota-free write path of
`saveChats`) and returned, anything else yields `[]`.  Returns the value
together with the resulting stored blob. -/
def chatsFallback (b : Blob JVal) : JVal × Option (Blob JVal) :=
  match parseRaw b with
  | some plain =>
    if isArr plain then (plain, some (.cipher plain)) else (.jarr [], some b)
  | none => (.jarr [], some b)

/-- `StorageService.getChats` (value view): returned value and resulting
stored blob. -/
def getChats (raw : Option (Blob JVal)) : JVal × Option (Blob JVal) :=
  match raw with
  | none => (.jarr [], none)
  | some b =>
    match decryptBlob b with
    | some v => if truthy v then (v, raw) else chatsFallback b
    | none => chatsFallback b

/-- The legacy-plaintext fallback of `getSettings`: a truthy value of JS
type `object` is migrated to encrypted form and returned, anything else
yields the defaults. -/
def settingsFallback (b : Blob JVal) : JVal × Option (Blob JVal) :=
  match parseRaw b with
  | some plain =>
    if truthy plain && typeofObject plain then (plain, some (.cipher plain))
    else (defaultSettings, some b)
  | none => (defaultSettings, some b)

/-- `StorageService.getSettings` (value view). -/
def getSettings (raw : Option (Blob JVal)) : JVal × Option (Blob JVal) :=
  match raw with
  | none => (defaultSettings, none)
  | some b =>
    match decryptBlob b with
    | some v => if truthy v then (v, raw) else settingsFallback b
    | none => settingsFallback b

/-- The legacy-plaintext fallback of `getGems`: like `getChats`. -/
def gemsFallback (b : Blob JVal) : JVal × Option (Blob JVal) :=
  match parseRaw b with
  | some plain =>
    if isArr plain then (plain, some (.cipher plain)) else (.jarr [], some b)
  | none => (.jarr [], some b)

/-- `StorageService.getGems` (value view). -/
def getGems (raw : Option (Blob JVal)) : JVal × Option (Blob JVal) :=
  match raw with
  | none => (.jarr [], none)
  | some b =>
    match decryptBlob b with
    | some v => if truthy v then (v, raw) else gemsFallback b
    | none => gemsFallback b

/-- `StorageService.saveSettings`: encrypt (which never fails on a JSON
value and yields a nonempty ciphertext) and overwrite the settings key. -/
def saveSettings (v : JVal) : Option (Blob JVal) :=
  some (.cipher v)

/-! ### `StorageService.updateChat` (typed catalog view) -/

/-- JS `Array.prototype.findIndex` (with `-1` as `none`). -/
def findIndex (p : α → Bool) : List α → Option Nat
  | [] => none
  | x :: xs => if p x then some 0 else (findIndex p xs).map (· + 1)

/-- `updateChat(id, messages, title?, modelId?)` acting on the decoded
catalog (`getChats()` result) with `Date.now()` supplied as `now`: a
missing id leaves the catalog untouched (nothing is written back); else
the matched session's messages are replaced, its timestamp refreshed,
title and model override rewritten only by truthy arguments, and the
session is spliced out and unshifted to the front. -/
def updatedSession (c : ChatSession) (messages : List ChatMessage)
    (title modelId : Option String) (now : Nat) : ChatSession :=
  { c with
    messages := messages
    updatedAt := now
    title := match title with
      | some t => if t ≠ "" then t else c.title
      | none => c.title
    modelId := match modelId with
      | some m => if m ≠ "" then some m else c.modelId
      | none => c.modelId }

/-- The in-place mutation of `chats[index]` performed by `updateChat`:
messages replaced, `updatedAt := Date.now()`, and `title` / `modelId`
overwritten only under JS truthiness of the optional argument (so an
empty string is ignored). -/
def updateChat (chats : List ChatSession) (id : String)
    (messages : List ChatMessage) (title modelId : Option String)
    (now : Nat) : List ChatSession :=
  match findIndex (fun c => c.id = id) chats with
  | none => chats
  | some i =>
    match chats.get? i with
    | none => chats
    | some c => updatedSession c messages title modelId now :: chats.eraseIdx i

/-! ## Session/Persona Directory (`Layout`): cascading gem deletion -/

/-- JS `s.startsWith(pat)`. -/
def strStartsWith (s pat : String) : Bool :=
  isLeadingRun pat.toList s.toList

/-- The cache-reference attachments of one message, as filenames: images
beginning with the `gemini-media://` scheme, with the scheme stripped
(inline data URLs are skipped). -/
def messageCacheRefs (m : ChatMessage) : List String :=
  (m.images.getD []).filterMap fun img =>
    if strStartsWith img "gemini-media://" then
      some (replaceFirst img "gemini-media://")
    else none

/-- All cache-reference filenames of a chat (`cleanupChatImages`' list). -/
def chatCacheRefs (c : ChatSession) : List String :=
  c.messages.flatMap messageCacheRefs

/-- The state the directory layer acts on: the chat catalog, the persona
catalog, and the set of filenames present in the media cache. -/
structure AppState where
  chats : List ChatSession
  gems : List Gem
  media : List String
deriving DecidableEq, Repr

/-- One externally visible deletion step of the cascade. -/
inductive DirOp
  | delMedia (filename : String)
  | delChat (id : String)
  | delGem (id : String)
deriving DecidableEq, Repr

/-- `cleanupChatImages(chat)`: one `gemini:deleteImage` per cache ref. -/
def cleanupOps (c : ChatSession) : List DirOp :=
  (chatCacheRefs c).map .delMedia

/-- Effect of one deletion step.  `gemini:deleteImage` unlinks exactly the
named file (a no-op when absent); `StorageService.deleteChat` /
`deleteGem` filter the catalogs by id. -/
def applyOp (st : AppState) : DirOp → AppState
  | .delMedia f => { st with media := st.media.filter (fun g => g ≠ f) }
  | .delChat id => { st with chats := st.chats.filter (fun c => c.id ≠ id) }
  | .delGem id => { st with gems := st.gems.filter (fun g => g.id ≠ id) }

/-- The deletion sequence `handleDeleteGem(gemId)` issues: for each linked
chat, its media cleanup followed by its session deletion; then, last, the
gem record deletion. -/
def handleDeleteGemOps (st : AppState) (gemId : String) : List DirOp :=
  ((st.chats.filter (fun c => c.gemId = some gemId)).flatMap
    (fun c => cleanupOps c ++ [.delChat c.id])) ++ [.delGem gemId]

/-- `handleDeleteGem(gemId)`: the cascade applied to the state. -/
def handleDeleteGem (st : AppState) (gemId : String) : AppState :=
  (handleDeleteGemOps st gemId).foldl applyOp st

/-- All cache refs reachable from the sessions linked to `gemId`. -/
def gemChatRefs (st : AppState) (gemId : String) : List String :=
  (st.chats.filter (fun c => c.gemId = some gemId)).flatMap chatCacheRefs

/-! ## Model Gateway: history rehydration of the `gemini:stream` handler -/

/-- An `inlineData` part payload: MIME type and base64-encoded bytes. -/
structure InlineData where
  mimeType : String
  data : String
deriving DecidableEq, Repr

/-- A history content part (`ChatHistoryItem['parts'][i]`): at most one of
`text`, `inlineData`, `internalUrl` is populated by the renderer, with
`none` standing for an absent key. -/
structure HistoryPart where
  text : Option String := none
  inlineData : Option InlineData := none
  internalUrl : Option String := none
deriving DecidableEq, Repr

/-- A history turn submitted over IPC (`ChatHistoryItem`). -/
structure HistoryItem where
  role : String
  parts : List HistoryPart
deriving DecidableEq, Repr

/-- The base64 alphabet. -/
def base64Alphabet : List Char :=
  "ABCDEFGHIJKLMNOPQRSTUVWXYZabcdefghijklmnopqrstuvwxyz0123456789+/".toList

/-- The base64 digit for a 6-bit value. -/
def base64Digit (n : Nat) : Char := base64Alphabet.getD n 'A'

/-- RFC 4648 base64 of a byte list (`Buffer.toString('base64')`). -/
def base64Encode : List Nat → List Char
  | [] => []
  | [a] => [base64Digit (a / 4), base64Digit (a % 4 * 16), '=', '=']
  | [a, b] =>
    [base64Digit (a / 4), base64Digit (a % 4 * 16 + b / 16),
     base64Digit (b % 16 * 4), '=']
  | a :: b :: c :: rest =>
    base64Digit (a / 4) :: base64Digit (a % 4 * 16 + b / 16) ::
      base64Digit (b % 16 * 4 + c / 64) :: base64Digit (c % 64) ::
        base64Encode rest

/-- `Buffer.toString('base64')` as a string. -/
def toBase64 (bytes : List Nat) : String := String.mk (base64Encode bytes)

/-- Extension → MIME table of the hydration step (png default; no svg
entry here, unlike the protocol handler). -/
def hydrateMime (ext : String) : String :=
  if ext = ".jpg" ∨ ext = ".jpeg" then "image/jpeg"
  else if ext = ".webp" then "image/webp"
  else if ext = ".gif" then "image/gif"
  else "image/png"

/-- The `processedHistory` part mapper: a part with a truthy `internalUrl`
is resolved through the images directory into a fresh `inlineData`-only
part; a missing file or a read error yields `null` (here `none`), which
the surrounding `.filter((p) => p !== null)` then drops. -/
def hydratePart (fs : Fs) (p : HistoryPart) : Option HistoryPart :=
  match p.internalUrl with
  | some u =>
    if u ≠ "" then
      let cleanFilename := replaceFirst u "gemini-media://"
      match fs (pathResolve imagesDir cleanFilename) with
      | some (.file data) =>
        some { inlineData := some (InlineData.mk
          (hydrateMime (strToLower (extname cleanFilename)))
          (toBase64 data)) }
      | some .dir => none
      | none => none
    else some p
  | none => some p

/-- The `sanitizedHistory` part mapper: a part still carrying a truthy
`internalUrl` has the field deleted, degrading to a `'[Image removed]'`
text part when nothing else remains. -/
def sanitizePart (p : HistoryPart) : HistoryPart :=
  match p.internalUrl with
  | some u =>
    if u ≠ "" then
      if p.text = none ∧ p.inlineData = none then
        { text := some "[Image removed]" }
      else { p with internalUrl := none }
    else p
  | none => p

/-- Keep only parts with a `text` or `inlineData` key (the final
`.filter` of `sanitizedHistory`). -/
def keepSanitized (p : HistoryPart) : Bool :=
  p.text.isSome || p.inlineData.isSome

/-- `sanitizedHistory`'s per-turn step: role normalization
(`assistant` → `model`) plus part sanitization and filtering. -/
def sanitizeItem (m : HistoryItem) : HistoryItem :=
  { role := if m.role = "assistant" then "model" else m.role,
    parts := (m.parts.map sanitizePart).filter keepSanitized }

/-- `processedHistory` followed by `sanitizedHistory`: the history as the
handler actually submits it to `model.startChat`. -/
def prepareHistory (fs : Fs) (history : List HistoryItem) : List HistoryItem :=
  (history.map
    (fun m => { m with parts := m.parts.filterMap (hydratePart fs) })).map
    sanitizeItem


/-! ## Concrete fixtures used by witnesses and counterexamples -/

/-- A rate-limited environment: three 429 failures, then success. -/
def exampleAttempts : Nat → Except ApiError String := fun k =>
  if k < 3 then .error { message := "429 Too Many Requests" } else .ok "done"

/-- A one-turn transcript ending in a user message. -/
def exampleMessages : List ChatMessage :=
  [{ role := .user, content := "hi" }]

/-- A failed gateway response. -/
def exampleFailure : StreamResult := { success := false, error := some "boom" }

/-- A successful gateway response. -/
def exampleSuccess : StreamResult :=
  { success := true, text := some "hello there" }

/-- A user message mixing an inline attachment with a cache reference. -/
def exampleMsg : ChatMessage :=
  ChatMessage.mk .user "draw"
    (some ["data:image/png;base64,AAAA", "gemini-media://a.png"])

/-- A chat linked to persona `g1` carrying `exampleMsg`. -/
def exampleChat : ChatSession :=
  { id := "c1", title := "T", updatedAt := 7,
    messages := [exampleMsg], gemId := some "g1" }

/-- A directory state with one persona, one linked and one free chat, and
two cached files (one reachable from the linked chat). -/
def exampleState : AppState :=
  { chats := [exampleChat,
      { id := "c2", title := "U", updatedAt := 8, messages := [] }],
    gems := [{ id := "g1", name := "Gem", icon := "star",
               instruction := "be nice" }],
    media := ["a.png", "other.png"] }

/-- Catalog entries for the `updateChat` witness. -/
def chatA : ChatSession := { id := "a", title := "A", messages := [], updatedAt := 1 }

/-- Second catalog entry. -/
def chatB : ChatSession := { id := "b", title := "B", messages := [], updatedAt := 2 }

/-- Third catalog entry. -/
def chatC : ChatSession := { id := "c", title := "C", messages := [], updatedAt := 3 }

/-- A file system whose cache directory holds nothing. -/
def c8Fs : Fs := fun p =>
  if p = userDataPath ∨ p = imagesDir then some .dir else none

/-- A file system whose cache directory holds `pic.png`. -/
def c8FsOk : Fs := fun p =>
  if p = imagesDir ++ ["pic.png"] then some (.file [1, 2, 3])
  else if p = userDataPath ∨ p = imagesDir then some .dir
  else none

/-! ## Helper predicates for the cascade proofs -/

/-- Does the deletion step leave chat `c` in the catalog? -/
def opKeepsChat (c : ChatSession) : DirOp → Bool
  | .delChat id => c.id ≠ id
  | _ => true

/-- Does the deletion step leave gem `g` in the catalog? -/
def opKeepsGem (g : Gem) : DirOp → Bool
  | .delGem id => g.id ≠ id
  | _ => true

/-- Does the deletion step leave file `f` in the cache? -/
def opKeepsMedia (f : String) : DirOp → Bool
  | .delMedia g => f ≠ g
  | _ => true

/-- The filename deleted by a media step, if it is one. -/
def delMediaName? : DirOp → Option String
  | .delMedia f => some f
  | _ => none

/-- All filenames deleted by a step sequence. -/
def delMediaNames (ops : List DirOp) : List String :=
  ops.filterMap delMediaName?

/-! ## Supporting lemmas -/

theorem retryRun_user (keep : List ChatMessage) (cid : Option String)
    (res : StreamResult) (last : ChatMessage)
    (hl : keep.getLast? = some last) (hu : last.role = .user) :
    retryRun keep cid res =
      some ⟨keep ++ [finalRetryMessage res],
        if res.success = true ∧ cid.getD "" ≠ "" then
          [(cid.getD "", keep ++ [finalRetryMessage res])] else []⟩ := by
  unfold retryRun generateResponse
  rw [hl]
  simp only [hu, ne_eq, not_true_eq_false, if_false]
  cases hres : res.success with
  | true =>
    simp only [if_true]
    unfold applyStreamSuccess
    rw [List.getLast?_concat]
    simp [placeholderMessage, finalRetryMessage, List.dropLast_concat, hres]
  | false =>
    simp only [Bool.false_eq_true, if_false]
    unfold applyStreamFailure
    rw [List.getLast?_concat]
    simp [placeholderMessage, finalRetryMessage, List.dropLast_concat, hres]

theorem findIndex_eq_none (p : α → Bool) (l : List α)
    (h : ∀ x ∈ l, p x = false) : findIndex p l = none := by
  induction l with
  | nil => rfl
  | cons x xs ih =>
    simp [findIndex, h x (by simp),
      ih (fun y hy => h y (List.mem_cons_of_mem _ hy))]

theorem findIndex_append_first (p : α → Bool) (pre post : List α) (c : α)
    (hpre : ∀ x ∈ pre, p x = false) (hc : p c = true) :
    findIndex p (pre ++ c :: post) = some pre.length := by
  induction pre with
  | nil => simp [findIndex, hc]
  | cons x xs ih =>
    simp [findIndex, hpre x (by simp),
      ih (fun y hy => hpre y (List.mem_cons_of_mem _ hy))]

theorem get?_append_length (pre post : List α) (c : α) :
    (pre ++ c :: post).get? pre.length = some c := by
  induction pre with
  | nil => rfl
  | cons x xs ih => simpa using ih

theorem eraseIdx_append_length (pre post : List α) (c : α) :
    (pre ++ c :: post).eraseIdx pre.length = pre ++ post := by
  induction pre with
  | nil => rfl
  | cons x xs ih => simpa using ih

theorem foldl_applyOp_chats (ops : List DirOp) (st : AppState) :
    (ops.foldl applyOp st).chats =
      st.chats.filter (fun c => ops.all (opKeepsChat c)) := by
  induction ops generalizing st with
  | nil => simp
  | cons op rest ih =>
    rw [List.foldl_cons, ih]
    cases op with
    | delMedia f => simp [applyOp, opKeepsChat, List.all_cons]
    | delChat id =>
      simp only [applyOp, opKeepsChat, List.all_cons, List.filter_filter]
      exact List.filter_congr (fun a _ => Bool.and_comm _ _)
    | delGem id => simp [applyOp, opKeepsChat, List.all_cons]

theorem foldl_applyOp_gems (ops : List DirOp) (st : AppState) :
    (ops.foldl applyOp st).gems =
      st.gems.filter (fun g => ops.all (opKeepsGem g)) := by
  induction ops generalizing st with
  | nil => simp
  | cons op rest ih =>
    rw [List.foldl_cons, ih]
    cases op with
    | delMedia f => simp [applyOp, opKeepsGem, List.all_cons]
    | delChat id => simp [applyOp, opKeepsGem, List.all_cons]
    | delGem id =>
      simp only [applyOp, opKeepsGem, List.all_cons, List.filter_filter]
      exact List.filter_congr (fun a _ => Bool.and_comm _ _)

theorem foldl_applyOp_media (ops : List DirOp) (st : AppState) :
    (ops.foldl applyOp st).media =
      st.media.filter (fun f => ops.all (opKeepsMedia f)) := by
  induction ops generalizing st with
  | nil => simp
  | cons op rest ih =>
    rw [List.foldl_cons, ih]
    cases op with
    | delMedia g =>
      simp only [applyOp, opKeepsMedia, List.all_cons, List.filter_filter]
      exact List.filter_congr (fun a _ => Bool.and_comm _ _)
    | delChat id => simp [applyOp, opKeepsMedia, List.all_cons]
    | delGem id => simp [applyOp, opKeepsMedia, List.all_cons]

theorem all_opKeepsMedia (ops : List DirOp) (f : String) :
    ops.all (opKeepsMedia f) = decide (¬ f ∈ delMediaNames ops) := by
  induction ops with
  | nil => simp [delMediaNames]
  | cons op rest ih =>
    cases op with
    | delMedia g =>
      simp [delMediaNames, List.filterMap_cons, delMediaName?, opKeepsMedia,
        List.all_cons, ih, List.mem_cons, not_or]
    | delChat id =>
      simp [delMediaNames, List.filterMap_cons, delMediaName?, opKeepsMedia,
        List.all_cons, ih]
    | delGem id =>
      simp [delMediaNames, List.filterMap_cons, delMediaName?, opKeepsMedia,
        List.all_cons, ih]

theorem delMediaNames_map_delMedia (refs : List String) :
    delMediaNames (refs.map DirOp.delMedia) = refs := by
  induction refs with
  | nil => rfl
  | cons r rest ih =>
    simp only [List.map_cons, delMediaNames, List.filterMap_cons,
      delMediaName?] at ih ⊢
    rw [ih]

theorem delMediaNames_flatMap (L : List ChatSession) :
    delMediaNames (L.flatMap fun c => cleanupOps c ++ [DirOp.delChat c.id]) =
      L.flatMap chatCacheRefs := by
  induction L with
  | nil => rfl
  | cons c rest ih =>
    simp only [List.flatMap_cons]
    rw [delMediaNames, List.filterMap_append, List.filterMap_append]
    rw [show List.filterMap delMediaName? (cleanupOps c) = chatCacheRefs c from
      delMediaNames_map_delMedia _]
    rw [show List.filterMap delMediaName? [DirOp.delChat c.id] = [] from rfl]
    rw [show List.filterMap delMediaName?
      (rest.flatMap fun c => cleanupOps c ++ [DirOp.delChat c.id]) =
      rest.flatMap chatCacheRefs from ih]
    simp

theorem delMediaNames_ops (st : AppState) (gid : String) :
    delMediaNames (handleDeleteGemOps st gid) = gemChatRefs st gid := by
  rw [handleDeleteGemOps, delMediaNames, List.filterMap_append]
  rw [show List.filterMap delMediaName? [DirOp.delGem gid] = [] from rfl]
  rw [show List.filterMap delMediaName?
    ((st.chats.filter fun c => c.gemId = some gid).flatMap
      fun c => cleanupOps c ++ [DirOp.delChat c.id]) =
    (st.chats.filter fun c => c.gemId = some gid).flatMap chatCacheRefs from
    delMediaNames_flatMap _]
  rw [gemChatRefs]
  simp

/-! ## The claims -/

/-- C1: the claim says a `MediaRef` whose filename resolves outside the
managed media directory is rejected with a 400-class result and its bytes
never returned.  The handler violates this: because the fallback
`split('/').pop() || decodedUrl` re-admits the whole multi-segment path
whenever the URL ends in `/`, the reference
`gemini-media://../secret.txt/` resolves to `userData/secret.txt` —
outside the images directory — and its bytes are served with status 200;
a bare `..` reference resolves to the `userData` directory itself and
yields a 500, also not a 400-class rejection. -/
theorem mediaResolve_traversal_escape :
    handleGeminiMedia escapeFs "gemini-media://../secret.txt/" =
        MediaResponse.ok "image/png" [42, 43, 44] ∧
      handleGeminiMedia escapeFs "gemini-media://.." =
        MediaResponse.internalError := by
  constructor <;> decide

/-- C2: retrying a user turn at index `i` (while no request is pending and
an API key is set) yields a transcript of exactly `i + 2` messages: the
kept turns `M[0..i]` unchanged, followed by exactly one new model turn
(the placeholder reconciled into final or error content); turns `0..i`
are not mutated, and the persistence call, when issued, writes exactly the
kept turns plus the final model turn. -/
theorem handleRetry_truncate_resend (apiKey : String)
    (messages : List ChatMessage) (index : Nat)
    (activeChatId : Option String) (res : StreamResult)
    (hkey : apiKey ≠ "") (hidx : index < messages.length)
    (hrole : (messages.get ⟨index, hidx⟩).role = .user) :
    handleRetry false apiKey messages index activeChatId res =
      some ⟨messages.take (index + 1) ++ [finalRetryMessage res],
        if res.success = true ∧ activeChatId.getD "" ≠ "" then
          [(activeChatId.getD "",
            messages.take (index + 1) ++ [finalRetryMessage res])]
        else []⟩ ∧
    (messages.take (index + 1) ++ [finalRetryMessage res]).length = index + 2 ∧
    (∀ j, j ≤ index →
      (messages.take (index + 1) ++ [finalRetryMessage res]).get? j =
        messages.get? j) := by
  have hget : messages.get? index = some (messages.get ⟨index, hidx⟩) :=
    List.get?_eq_get hidx
  have hlast : (messages.take (index + 1)).getLast? =
      some (messages.get ⟨index, hidx⟩) := by
    rw [List.take_succ]
    have he : messages[index]? = some (messages.get ⟨index, hidx⟩) := by
      simp [List.getElem?_eq_getElem hidx, List.get_eq_getElem]
    rw [he]
    exact List.getLast?_concat _
  refine ⟨?_, ?_, ?_⟩
  · unfold handleRetry
    simp only [Bool.false_eq_true, if_false, if_neg hkey, hget]
    rw [hrole]
    exact retryRun_user _ _ _ _ hlast hrole
  · simp only [List.length_append, List.length_take, List.length_singleton]
    omega
  · intro j hj
    rw [List.get?_append (by simp only [List.length_take]; omega)]
    exact List.get?_take (by omega)

/-- C2 witness: a concrete successful retry on the user turn at index 0. -/
theorem handleRetry_truncate_resend_witness :
    handleRetry false "key" exampleMessages 0 (some "c1") exampleSuccess =
      some ⟨exampleMessages.take 1 ++ [finalRetryMessage exampleSuccess],
        if exampleSuccess.success = true ∧ (some "c1").getD "" ≠ "" then
          [((some "c1").getD "",
            exampleMessages.take 1 ++ [finalRetryMessage exampleSuccess])]
        else []⟩ :=
  (handleRetry_truncate_resend "key" exampleMessages 0 (some "c1")
    exampleSuccess (by decide) (by decide) (by decide)).1

/-- C3: deleting persona `gemId` leaves zero sessions referencing it,
removes exactly its record from the persona catalog, removes from the
media cache exactly the cache-reference filenames reachable from the
deleted sessions (inline attachments cause no deletions), performs the
persona-record deletion as the last step of the cascade, and for each
linked session performs its media deletions immediately before its
session deletion. -/
theorem handleDeleteGem_cascade (st : AppState) (gemId : String) :
    ((handleDeleteGem st gemId).chats.filter
        (fun c => c.gemId = some gemId) = []) ∧
    ((handleDeleteGem st gemId).gems =
        st.gems.filter (fun g => g.id ≠ gemId)) ∧
    ((handleDeleteGem st gemId).media =
        st.media.filter (fun f => ¬ f ∈ gemChatRefs st gemId)) ∧
    ((handleDeleteGemOps st gemId).getLast? = some (.delGem gemId)) ∧
    (∀ c ∈ st.chats.filter (fun c => c.gemId = some gemId),
      List.IsInfix (cleanupOps c ++ [DirOp.delChat c.id])
        (handleDeleteGemOps st gemId)) := by
  refine ⟨?_, ?_, ?_, ?_, ?_⟩
  · rw [handleDeleteGem, foldl_applyOp_chats]
    rw [List.filter_eq_nil_iff]
    intro c hc
    rw [List.mem_filter] at hc
    obtain ⟨hmem, hall⟩ := hc
    intro hgem
    have hL : c ∈ st.chats.filter (fun c => c.gemId = some gemId) :=
      List.mem_filter.2 ⟨hmem, by simpa using of_decide_eq_true hgem⟩
    have hop : DirOp.delChat c.id ∈ handleDeleteGemOps st gemId := by
      unfold handleDeleteGemOps
      refine List.mem_append_left _ (List.mem_flatMap.2 ⟨c, hL, ?_⟩)
      exact List.mem_append_right _ (by simp)
    have := (List.all_eq_true.1 hall) _ hop
    simp [opKeepsChat] at this
  · rw [handleDeleteGem, foldl_applyOp_gems]
    refine List.filter_congr (fun g _ => ?_)
    unfold handleDeleteGemOps
    rw [List.all_append]
    have : (List.all ((st.chats.filter fun c => c.gemId = some gemId).flatMap
        fun c => cleanupOps c ++ [DirOp.delChat c.id]) (opKeepsGem g)) = true := by
      rw [List.all_eq_true]
      intro op hop
      rw [List.mem_flatMap] at hop
      obtain ⟨c, _, hop⟩ := hop
      rcases List.mem_append.1 hop with h | h
      · simp only [cleanupOps, List.mem_map] at h
        obtain ⟨r, _, rfl⟩ := h
        rfl
      · simp only [List.mem_singleton] at h
        subst h
        rfl
    rw [this]
    simp [opKeepsGem]
  · rw [handleDeleteGem, foldl_applyOp_media]
    refine List.filter_congr (fun f _ => ?_)
    rw [all_opKeepsMedia, delMediaNames_ops]
  · unfold handleDeleteGemOps
    exact List.getLast?_concat _
  · intro c hc
    obtain ⟨s1, s2, hsplit⟩ := List.append_of_mem hc
    unfold handleDeleteGemOps
    rw [hsplit, List.flatMap_append, List.flatMap_cons]
    exact ⟨s1.flatMap fun c => cleanupOps c ++ [DirOp.delChat c.id],
      (s2.flatMap fun c => cleanupOps c ++ [DirOp.delChat c.id]) ++
        [DirOp.delGem gemId],
      by simp [List.append_assoc]⟩

/-- C3 witness: the cascade on `exampleState` for persona `g1`, with the
linked chat `exampleChat` getting its media cleanup before its deletion. -/
theorem handleDeleteGem_cascade_witness :
    (handleDeleteGem exampleState "g1").chats.filter
        (fun c => c.gemId = some "g1") = [] ∧
    List.IsInfix (cleanupOps exampleChat ++ [DirOp.delChat exampleChat.id])
      (handleDeleteGemOps exampleState "g1") :=
  ⟨(handleDeleteGem_cascade exampleState "g1").1,
   (handleDeleteGem_cascade exampleState "g1").2.2.2.2 exampleChat (by decide)⟩

/-- C4 counterexample: after a failed generation the formatted error text
replaces the placeholder in the in-memory transcript, but the operation
issues no persistence call at all — the persisted-calls list is empty, so
the error is NOT part of the saved conversation history, contradicting
the claim that the resulting transcript is persisted to the store. -/
theorem generateResponse_failure_unpersisted_cex :
    generateResponse [{ role := .user, content := "hi" }] "chat1"
        exampleFailure
        ([{ role := .user, content := "hi" }] ++ [placeholderMessage]) =
      some ⟨[{ role := .user, content := "hi" },
             { role := .model,
               content :=
                 "Error: boom\n\nTry a different model or check your API key." }],
            []⟩ := by decide

/-- C4 (amended): on a failed generation the trailing placeholder is
replaced with the formatted error message in the in-memory transcript —
errors are visible conversation history — but the resulting transcript is
not persisted at that point: the failure branch issues no `onUpdateChat`
call, so the store still holds the transcript as of the optimistic
user-message write (the error turn reaches the store only if some later
operation persists the transcript). -/
theorem generateResponse_failure_in_transcript_only
    (hist : List ChatMessage) (chatId : String) (res : StreamResult)
    (last : ChatMessage) (hl : hist.getLast? = some last)
    (hu : last.role = .user) (hfail : res.success = false) :
    generateResponse hist chatId res (hist ++ [placeholderMessage]) =
      some ⟨hist ++ [{ role := .model, content := streamErrorText res }],
            []⟩ := by
  unfold generateResponse
  rw [hl]
  simp only [hu, ne_eq, not_true_eq_false, if_false, hfail, Bool.false_eq_true]
  unfold applyStreamFailure
  rw [List.getLast?_concat]
  simp [placeholderMessage, List.dropLast_concat]

/-- C4 witness: a failed generation with no `error` field renders the JS
`undefined` interpolation and, again, persists nothing. -/
theorem generateResponse_failure_in_transcript_only_witness :
    generateResponse [{ role := .user, content := "hello" }] "c9"
        { success := false }
        ([{ role := .user, content := "hello" }] ++ [placeholderMessage]) =
      some ⟨[{ role := .user, content := "hello" }] ++
              [{ role := .model,
                 content := streamErrorText { success := false } }],
            []⟩ :=
  generateResponse_failure_in_transcript_only
    [{ role := .user, content := "hello" }] "c9" { success := false }
    { role := .user, content := "hello" } rfl rfl rfl

/-- C5: the `gemini:stream` retry loop under rate limiting: a call that
fails with a 429-classified error on attempts 0, 1 and 2 and succeeds on
attempt 3 returns the success payload after sleeping 2000 + 4000 + 8000 =
14000 ms of doubling backoff; a call rate-limited on all four attempts
surfaces the final error to the caller (retries are capped at 3). -/
theorem geminiStream_rate_limit_retry {α : Type}
    (attempts : Nat → Except ApiError α) (e : Nat → ApiError) (v : α) :
    ((∀ k, k < 3 → attempts k = .error (e k) ∧ isRateLimitError (e k) = true) →
      attempts 3 = .ok v →
      geminiStreamRetry attempts = (.ok v, 14000)) ∧
    ((∀ k, k ≤ 3 → attempts k = .error (e k) ∧ isRateLimitError (e k) = true) →
      geminiStreamRetry attempts = (.error (e 3), 14000)) := by
  constructor
  · intro hf h3
    have h0 := hf 0 (by norm_num)
    have h1 := hf 1 (by norm_num)
    have h2 := hf 2 (by norm_num)
    unfold geminiStreamRetry
    rw [sendWithRetry, h0.1]
    simp only [h0.2, true_and]
    rw [dif_pos (by norm_num [maxRetries])]
    rw [sendWithRetry, h1.1]
    simp only [h1.2, true_and]
    rw [dif_pos (by norm_num [maxRetries])]
    rw [sendWithRetry, h2.1]
    simp only [h2.2, true_and]
    rw [dif_pos (by norm_num [maxRetries])]
    rw [sendWithRetry, h3]
    norm_num
  · intro hf
    have h0 := hf 0 (by norm_num)
    have h1 := hf 1 (by norm_num)
    have h2 := hf 2 (by norm_num)
    have h3 := hf 3 (by norm_num)
    unfold geminiStreamRetry
    rw [sendWithRetry, h0.1]
    simp only [h0.2, true_and]
    rw [dif_pos (by norm_num [maxRetries])]
    rw [sendWithRetry, h1.1]
    simp only [h1.2, true_and]
    rw [dif_pos (by norm_num [maxRetries])]
    rw [sendWithRetry, h2.1]
    simp only [h2.2, true_and]
    rw [dif_pos (by norm_num [maxRetries])]
    rw [sendWithRetry, h3.1]
    simp only [h3.2, true_and]
    rw [dif_neg (by norm_num [maxRetries])]
    norm_num

/-- C5 witness: three concrete 429 failures then success on the fourth
attempt, returning the final payload with 14 s of accumulated backoff. -/
theorem geminiStream_rate_limit_retry_witness :
    geminiStreamRetry exampleAttempts = (.ok "done", 14000) :=
  (geminiStream_rate_limit_retry exampleAttempts
      (fun _ => { message := "429 Too Many Requests" }) "done").1
    (fun k hk => ⟨by unfold exampleAttempts; rw [if_pos hk], by decide⟩)
    (by unfold exampleAttempts; rw [if_neg (by norm_num)])

/-- C6: `saveChats` never lets an exception escape (the modelled result is
always `.ok`): when the first encrypted write fails it retries exactly
once with `liteChats`, whose messages keep role and text content but drop
the binary attachment field; if the retry also fails the error is
swallowed and the stored blob is left as it was. -/
theorem saveChats_degrades_never_throws (fail1 fail2 : Bool)
    (chats : List ChatSession) (st : Option (Blob (List ChatSession))) :
    saveChats fail1 fail2 chats st =
      .ok (if fail1 then
            (if fail2 then st else some (.cipher (liteChats chats)))
           else some (.cipher chats)) ∧
    (∀ c ∈ liteChats chats, ∀ m ∈ c.messages, m.images = none) ∧
    ((liteChats chats).map
        (fun c => c.messages.map (fun m => (m.role, m.content))) =
      chats.map (fun c => c.messages.map (fun m => (m.role, m.content)))) ∧
    ((liteChats chats).map
        (fun c => (c.id, c.title, c.updatedAt, c.modelId, c.gemId)) =
      chats.map (fun c => (c.id, c.title, c.updatedAt, c.modelId, c.gemId))) := by
  refine ⟨?_, ?_, ?_, ?_⟩
  · cases fail1 <;> cases fail2 <;> simp [saveChats, trySetItem]
  · intro c hc m hm
    simp only [liteChats, List.mem_map] at hc
    obtain ⟨c0, _, rfl⟩ := hc
    simp only [liteChat, List.mem_map] at hm
    obtain ⟨m0, _, rfl⟩ := hm
    rfl
  · simp [liteChats, liteChat, liteMessage, List.map_map, Function.comp]
  · simp [liteChats, liteChat, List.map_map, Function.comp]

/-- C6 witness: a quota failure on the first write falls back to the
stripped catalog, and the stripped copy of `exampleMsg` has no images. -/
theorem saveChats_degrades_never_throws_witness :
    saveChats true false [exampleChat] none =
      .ok (if true then
            (if false then none else some (.cipher (liteChats [exampleChat])))
           else some (.cipher [exampleChat])) ∧
    (liteMessage exampleMsg).images = none :=
  ⟨(saveChats_degrades_never_throws true false [exampleChat] none).1,
   (saveChats_degrades_never_throws true false [exampleChat] none).2.1
     (liteChat exampleChat) (by decide) (liteMessage exampleMsg) (by decide)⟩

/-- C7: for each persisted blob, load first attempts decryption and
returns a (truthy) decrypted value as is; on decryption failure it
attempts a plaintext parse and, when the parsed value has the expected
shape (an array for the sessions and persona catalogs, a truthy value of
JS object type for settings), immediately re-persists it encrypted and
returns it; when both fail — missing key, wrong shape, or unparsable raw
data — it returns the empty/default value ([] or `defaultSettings`), and
every path is a total function (nothing throws). -/
theorem store_load_fallback_semantics (v : JVal) :
    getChats none = (.jarr [], none) ∧
    (truthy v = true → getChats (some (.cipher v)) = (v, some (.cipher v))) ∧
    (isArr v = true →
      getChats (some (.plainJson v)) = (v, some (.cipher v))) ∧
    (isArr v = false →
      getChats (some (.plainJson v)) = (.jarr [], some (.plainJson v))) ∧
    getChats (some .garbage) = (.jarr [], some .garbage) ∧
    getSettings none = (defaultSettings, none) ∧
    (truthy v = true →
      getSettings (some (.cipher v)) = (v, some (.cipher v))) ∧
    (truthy v = true → typeofObject v = true →
      getSettings (some (.plainJson v)) = (v, some (.cipher v))) ∧
    ((truthy v && typeofObject v) = false →
      getSettings (some (.plainJson v)) =
        (defaultSettings, some (.plainJson v))) ∧
    getSettings (some .garbage) = (defaultSettings, some .garbage) ∧
    getGems none = (.jarr [], none) ∧
    (truthy v = true → getGems (some (.cipher v)) = (v, some (.cipher v))) ∧
    (isArr v = true → getGems (some (.plainJson v)) = (v, some (.cipher v))) ∧
    (isArr v = false →
      getGems (some (.plainJson v)) = (.jarr [], some (.plainJson v))) ∧
    getGems (some .garbage) = (.jarr [], some .garbage) := by
  refine ⟨rfl, ?_, ?_, ?_, rfl, rfl, ?_, ?_, ?_, rfl, rfl, ?_, ?_, ?_, rfl⟩
  all_goals intro h
  · simp [getChats, decryptBlob, h]
  · simp [getChats, decryptBlob, chatsFallback, parseRaw, h]
  · simp [getChats, decryptBlob, chatsFallback, parseRaw, h]
  · simp [getSettings, decryptBlob, h]
  · intro h2; simp [getSettings, decryptBlob, settingsFallback, parseRaw, h, h2]
  · simp [getSettings, decryptBlob, settingsFallback, parseRaw, h]
  · simp [getGems, decryptBlob, h]
  · simp [getGems, decryptBlob, gemsFallback, parseRaw, h]
  · simp [getGems, decryptBlob, gemsFallback, parseRaw, h]

/-- C7 witness: a legacy plaintext sessions array is migrated to encrypted
form and returned, and a legacy plaintext settings object likewise. -/
theorem store_load_fallback_semantics_witness :
    getChats (some (.plainJson (.jarr []))) =
      (.jarr [], some (.cipher (.jarr []))) ∧
    getSettings (some (.plainJson (.jobj [("apiKeys", .jarr [])]))) =
      (.jobj [("apiKeys", .jarr [])],
       some (.cipher (.jobj [("apiKeys", .jarr [])]))) :=
  ⟨(store_load_fallback_semantics (.jarr [])).2.2.1 rfl,
   (store_load_fallback_semantics
     (.jobj [("apiKeys", .jarr [])])).2.2.2.2.2.2.2.1 rfl rfl⟩

/-- C8 counterexample: a prior turn whose only part is an unresolvable
cache reference is submitted with an empty parts list — the attachment is
silently dropped, and no textual placeholder part appears in the
submitted history, contradicting the claim that unresolvable references
degrade to a textual placeholder part. -/
theorem prepareHistory_no_placeholder_cex :
    prepareHistory c8Fs
        [{ role := "user",
           parts := [{ internalUrl := some "gemini-media://missing.png" }] }] =
      [{ role := "user", parts := [] }] := by decide

/-- C8 (amended): resolvable cache references in prior turns are inlined
as raw bytes (base64 `inlineData` with the extension-derived MIME type)
before submission, and unresolvable references are silently dropped from
the turn — the part is removed, no placeholder is substituted — while the
turn itself survives (the history never shrinks and the whole turn never
fails); no part of the submitted history carries the local cache scheme. -/
theorem prepareHistory_rehydrate_drop_unresolvable (fs : Fs)
    (history : List HistoryItem)
    (hno : ∀ m ∈ history, ∀ p ∈ m.parts, p.internalUrl ≠ some "") :
    (prepareHistory fs history).length = history.length ∧
    (∀ m ∈ prepareHistory fs history, ∀ p ∈ m.parts,
      p.internalUrl = none ∧ (p.text.isSome || p.inlineData.isSome) = true) ∧
    (∀ role u data, u ≠ "" →
      fs (pathResolve imagesDir (replaceFirst u "gemini-media://")) =
        some (.file data) →
      prepareHistory fs [⟨role, [{ internalUrl := some u }]⟩] =
        [⟨if role = "assistant" then "model" else role,
          [{ inlineData := some (InlineData.mk
              (hydrateMime (strToLower (extname
                (replaceFirst u "gemini-media://"))))
              (toBase64 data)) }]⟩]) ∧
    (∀ role u, u ≠ "" →
      (∀ data, fs (pathResolve imagesDir (replaceFirst u "gemini-media://")) ≠
        some (.file data)) →
      prepareHistory fs [⟨role, [{ internalUrl := some u }]⟩] =
        [⟨if role = "assistant" then "model" else role, []⟩]) := by
  refine ⟨?_, ?_, ?_, ?_⟩
  · simp [prepareHistory]
  · intro m hm p hp
    simp only [prepareHistory, List.map_map, List.mem_map] at hm
    obtain ⟨m0, hm0, rfl⟩ := hm
    simp only [Function.comp, sanitizeItem, List.mem_filter,
      List.mem_map] at hp
    obtain ⟨⟨q, hq, rfl⟩, hkeep⟩ := hp
    refine ⟨?_, hkeep⟩
    rw [List.mem_filterMap] at hq
    obtain ⟨p0, hp0, hhyd⟩ := hq
    have hqnone : q.internalUrl = none := by
      unfold hydratePart at hhyd
      cases hu : p0.internalUrl with
      | none =>
        simp only [hu] at hhyd
        cases hhyd
        exact hu
      | some u =>
        simp only [hu] at hhyd
        have hune : u ≠ "" := by
          intro h
          exact hno m0 hm0 p0 hp0 (by rw [hu, h])
        rw [if_pos hune] at hhyd
        cases hfs : fs (pathResolve imagesDir
            (replaceFirst u "gemini-media://")) with
        | none => rw [hfs] at hhyd; cases hhyd
        | some e =>
          cases e with
          | file d =>
            rw [hfs] at hhyd
            cases hhyd
            rfl
          | dir => rw [hfs] at hhyd; cases hhyd
    unfold sanitizePart
    rw [hqnone]
    exact hqnone
  · intro role u data hu hfs
    simp [prepareHistory, hydratePart, sanitizeItem, sanitizePart,
      keepSanitized, hu, hfs]
  · intro role u hu hne
    cases hfs : fs (pathResolve imagesDir
        (replaceFirst u "gemini-media://")) with
    | none => simp [prepareHistory, hydratePart, sanitizeItem, hu, hfs]
    | some e =>
      cases e with
      | file d => exact absurd hfs (hne d)
      | dir => simp [prepareHistory, hydratePart, sanitizeItem, hu, hfs]

/-- C8 witness: an assistant turn holding a resolvable cache reference is
role-normalized and rehydrated into inline base64 bytes. -/
theorem prepareHistory_rehydrate_drop_unresolvable_witness :
    prepareHistory c8FsOk
        [⟨"assistant", [{ internalUrl := some "gemini-media://pic.png" }]⟩] =
      [⟨if "assistant" = "assistant" then "model" else "assistant",
        [{ inlineData := some (InlineData.mk
            (hydrateMime (strToLower (extname
              (replaceFirst "gemini-media://pic.png" "gemini-media://"))))
            (toBase64 [1, 2, 3])) }]⟩] :=
  (prepareHistory_rehydrate_drop_unresolvable c8FsOk [] (by simp)).2.2.1
    "assistant" "gemini-media://pic.png" [1, 2, 3] (by decide) (by decide)

/-- C9: storing a (truthy) settings value through `saveSettings` and
loading it back through `getSettings` returns a value equal to the
original, with the blob held in encrypted form. -/
theorem settings_round_trip (v : JVal) (h : truthy v = true) :
    getSettings (saveSettings v) = (v, some (.cipher v)) := by
  simp [saveSettings, getSettings, decryptBlob, h]

/-- C9 witness: the default settings object (zero credentials) survives
the round trip. -/
theorem settings_round_trip_witness :
    getSettings (saveSettings defaultSettings) =
      (defaultSettings, some (.cipher defaultSettings)) :=
  settings_round_trip defaultSettings rfl

/-- C10: `updateChat` on a catalog without the id leaves the catalog
completely unchanged; on the catalog `pre ++ c :: post` whose first match
is `c`, it produces exactly the updated session moved to the front
followed by the other sessions unchanged; and the updated session has the
new messages and timestamp, keeps its id and persona link, and takes the
title / model-override arguments only when they are truthy (an empty
string is ignored). -/
theorem updateChat_frame (pre post : List ChatSession) (c : ChatSession)
    (id : String) (messages : List ChatMessage)
    (title modelId : Option String) (now : Nat)
    (hpre : ∀ x ∈ pre, x.id ≠ id) (hc : c.id = id) :
    updateChat (pre ++ c :: post) id messages title modelId now =
      updatedSession c messages title modelId now :: (pre ++ post) ∧
    (∀ chats2 : List ChatSession, (∀ x ∈ chats2, x.id ≠ id) →
      updateChat chats2 id messages title modelId now = chats2) ∧
    (updatedSession c messages title modelId now).messages = messages ∧
    (updatedSession c messages title modelId now).updatedAt = now ∧
    ((title = none ∨ title = some "") →
      (updatedSession c messages title modelId now).title = c.title) ∧
    (∀ t, title = some t → t ≠ "" →
      (updatedSession c messages title modelId now).title = t) ∧
    ((modelId = none ∨ modelId = some "") →
      (updatedSession c messages title modelId now).modelId = c.modelId) ∧
    (∀ m, modelId = some m → m ≠ "" →
      (updatedSession c messages title modelId now).modelId = some m) ∧
    (updatedSession c messages title modelId now).id = c.id ∧
    (updatedSession c messages title modelId now).gemId = c.gemId := by
  refine ⟨?_, ?_, rfl, rfl, ?_, ?_, ?_, ?_, rfl, rfl⟩
  · unfold updateChat
    rw [findIndex_append_first _ _ _ _ (fun x hx => decide_eq_false (hpre x hx))
      (decide_eq_true hc)]
    simp only [get?_append_length, eraseIdx_append_length]
  · intro chats2 h2
    unfold updateChat
    rw [findIndex_eq_none _ _ (fun x hx => decide_eq_false (h2 x hx))]
  · rintro (rfl | rfl) <;> rfl
  · rintro t rfl ht
    simp [updatedSession, ht]
  · rintro (rfl | rfl) <;> rfl
  · rintro m rfl hm
    simp [updatedSession, hm]

/-- C10 witness: updating the middle session of a three-entry catalog with
a truthy title and a falsy (empty-string) model override. -/
theorem updateChat_frame_witness :
    updateChat ([chatA] ++ chatC :: [chatB]) "c" [] (some "T2") (some "") 9 =
      updatedSession chatC [] (some "T2") (some "") 9 :: ([chatA] ++ [chatB]) :=
  (updateChat_frame [chatA] [chatB] chatC "c" [] (some "T2") (some "") 9
    (by decide) (by decide)).1

end Gemapp
